import Mathlib

/- Shallow embedding of the Librarian repository: an HTTP backend that gates
   the route /discover behind an x402 micropayment while /health stays open.
   The router wiring and the wrapped handler are translated from
   src/infra/src/backend/mod.rs and the client configuration from
   src/client-tests/src/main.rs. The x402 protocol layer itself (price tag
   sets, amounts, policy, middleware state machine, client payment agent,
   facilitator retry) lives in external crates that are not part of this
   repository; those components are modelled from the specification, as
   marked in each doc comment. -/

namespace Librarian

/-- Enumerated chain identity. The source uses exactly the two networks
Network.BaseSepolia and Network.Solana (backend/mod.rs lines 108-111). -/
inductive Network where
  | baseSepolia
  | solana
  deriving DecidableEq, Repr

/-- AssetDeployment data: network, canonical symbol and decimal count.
Both deployments used by the source are USDC, which carries 6 decimals. -/
structure Asset where
  network : Network
  symbol : String
  decimals : Nat
  deriving DecidableEq, Repr

/-- USDCDeployment.by_network(Network.BaseSepolia) from the source. -/
def usdcBaseSepolia : Asset := ⟨Network.baseSepolia, "USDC", 6⟩

/-- USDCDeployment.by_network(Network.Solana) from the source. -/
def usdcSolana : Asset := ⟨Network.solana, "USDC", 6⟩

/-- Modelled from the spec: a human decimal string in structured form, the
integer part, the number of fractional digits and their value. The concrete
Amount parser lives in the external x402_rs crate, absent from src. The
validity bound fracVal < 10 ^ fracLen states that fracVal indeed has at most
fracLen digits. -/
structure DecimalString where
  intPart : Nat
  fracLen : Nat
  fracVal : Nat
  deriving DecidableEq, Repr

/-- Modelled from the spec: Amount construction from a human decimal string,
in the smallest unit of an asset with d decimals; fails (none) when the
string carries more fractional digits than the asset declares, never
rounding. -/
def fromDecimal (d : Nat) (s : DecimalString) : Option Nat :=
  if s.fracLen ≤ d then
    some (s.intPart * 10 ^ d + s.fracVal * 10 ^ (d - s.fracLen))
  else
    none

/-- Drop trailing zero digits of a fractional value of the given length. -/
def stripZeros : Nat → Nat → Nat × Nat
  | 0, v => (0, v)
  | l + 1, v => if v % 10 = 0 then stripZeros l (v / 10) else (l + 1, v)

/-- Modelled from the spec: render an Amount in smallest units back to the
canonical human decimal string at d decimals. -/
def toDecimal (d : Nat) (n : Nat) : DecimalString :=
  ⟨n / 10 ^ d, (stripZeros d (n % 10 ^ d)).1, (stripZeros d (n % 10 ^ d)).2⟩

/-- The decimal literal 0.001 passed to .amount(0.001) in the source. -/
def dec0001 : DecimalString := ⟨0, 3, 1⟩

/-- PriceTag: asset, amount in smallest units, payee address. -/
structure PriceTag where
  asset : Asset
  amount : Nat
  payee : String
  deriving DecidableEq, Repr

/-- Price tag for Solana USDC built in the source (backend/mod.rs lines
110-111 and 126): pay_to the Solana address, amount 0.001. -/
def solanaTag : PriceTag :=
  ⟨usdcSolana, (fromDecimal usdcSolana.decimals dec0001).getD 0,
    "11111111111111111111111111111112"⟩

/-- Price tag for Base Sepolia USDC built in the source (backend/mod.rs
lines 108-109 and 127): pay_to the EVM address, amount 0.001. -/
def baseSepoliaTag : PriceTag :=
  ⟨usdcBaseSepolia, (fromDecimal usdcBaseSepolia.decimals dec0001).getD 0,
    "0xf2757Fe8Ba90ad98dAed8e6254bA9A677069826a"⟩

/-- Modelled from the spec: an ordered collection of acceptable price tags
attached to a protected route, together with the recorded per-asset
ceilings. -/
structure PriceTagSet where
  tags : List PriceTag
  maxes : List (Asset × Nat)
  deriving DecidableEq, Repr

def PriceTagSet.empty : PriceTagSet := ⟨[], []⟩

/-- Modelled from the spec: prefer forces a tag to the front. In the source
wiring this is with_price_tag. -/
def PriceTagSet.prefer (s : PriceTagSet) (t : PriceTag) : PriceTagSet :=
  ⟨t :: s.tags, s.maxes⟩

/-- Modelled from the spec: orTag appends a fallback alternative. In the
source wiring this is or_price_tag. -/
def PriceTagSet.orTag (s : PriceTagSet) (t : PriceTag) : PriceTagSet :=
  ⟨s.tags ++ [t], s.maxes⟩

/-- Modelled from the spec: record a ceiling amount for an asset that any
client-selected tag must not exceed. -/
def PriceTagSet.maxTag (s : PriceTagSet) (a : Asset) (m : Nat) : PriceTagSet :=
  ⟨s.tags, s.maxes ++ [(a, m)]⟩

/-- Recorded ceiling for an asset, if any max was set. -/
def PriceTagSet.maxFor (s : PriceTagSet) (a : Asset) : Option Nat :=
  (s.maxes.find? (fun p => decide (p.1 = a))).map Prod.snd

/-- First listed tag structurally matching the given asset and payee. -/
def PriceTagSet.findListed (s : PriceTagSet) (a : Asset) (payee : String) :
    Option PriceTag :=
  s.tags.find? (fun t => decide (t.asset = a ∧ t.payee = payee))

/-- Modelled from the spec: outcome of checking a client-proposed tag
against the price tag set of a route. -/
inductive PolicyResult where
  | accept
  | rejectInsufficient
  | rejectExceedsMax
  | rejectUnlisted
  deriving DecidableEq, Repr

/-- Modelled from the spec: resolve_policy. A client-proposed tag is
accepted only if it structurally matches one listed tag and its amount does
not exceed the recorded max for that asset (if any max was set); amounts
below the listed amount are rejected as insufficient, payment must meet or
exceed the exact listed amount. -/
def resolve_policy (s : PriceTagSet) (c : PriceTag) : PolicyResult :=
  match s.findListed c.asset c.payee with
  | none => PolicyResult.rejectUnlisted
  | some t =>
    if c.amount < t.amount then PolicyResult.rejectInsufficient
    else
      match s.maxFor c.asset with
      | some m =>
          if m < c.amount then PolicyResult.rejectExceedsMax
          else PolicyResult.accept
      | none => PolicyResult.accept

/-- Modelled from the spec: the decoded payment proof submitted by a client.
The selected tag is the part policy inspects; wellFormed abstracts the
decode step of the codec (signature, nonce and expiry are opaque to the
middleware and checked by the facilitator). -/
structure PaymentProof where
  tag : PriceTag
  wellFormed : Bool
  deriving DecidableEq, Repr

/-- The x402 layer configuration attached to a route in the source:
description, mime type and the price tag set (backend/mod.rs lines
121-128). -/
structure X402Layer where
  description : String
  mimeType : String
  tagSet : PriceTagSet
  deriving DecidableEq, Repr

/-- The wire document sent with a 402 challenge: route metadata plus one
entry per price tag, in server preference order. -/
structure PaymentRequirement where
  description : String
  mimeType : String
  accepts : List PriceTag
  deriving DecidableEq, Repr

/-- Render the PaymentRequirement document of a layer, fresh per 402. -/
def X402Layer.requirement (l : X402Layer) : PaymentRequirement :=
  ⟨l.description, l.mimeType, l.tagSet.tags⟩

/-- The x402 layer built for /discover in the source: description MCP
Discovery Service, mime type application/json, Solana tag preferred and
Base Sepolia tag as fallback (backend/mod.rs lines 121-128). -/
def discoverLayer : X402Layer :=
  ⟨"MCP Discovery Service", "application/json",
    (PriceTagSet.empty.prefer solanaTag).orTag baseSepoliaTag⟩

/-- Body of an HTTP response: plain text or a rendered PaymentRequirement
document. -/
inductive RespBody where
  | text (s : String)
  | requirement (r : PaymentRequirement)
  deriving DecidableEq, Repr

/-- Observable outcome of processing one request: the response plus the
trace of effects the middleware produced, namely every input the wrapped
handler was invoked on and the number of facilitator verify and settle
calls. -/
structure Outcome (β : Type) where
  status : Nat
  body : RespBody
  handlerInputs : List β
  verifyCalls : Nat
  settleCalls : Nat
  deriving DecidableEq, Repr

/-- A request to a protected route: the optional payment-proof header and
the body handed to the wrapped handler. -/
structure ProtectedRequest (β : Type) where
  paymentHeader : Option PaymentProof
  body : β
  deriving DecidableEq, Repr

/-- Modelled from the spec: the middleware state machine of a protected
route, flattened to one request. No header: 402 with the rendered
requirement, handler never invoked. Malformed proof: 400-class. Policy
rejection: 402 without a facilitator call. Policy accept: one verify call;
a negative verdict yields 402, a positive verdict invokes the wrapped
handler exactly once on the unmodified body and schedules exactly one
settle call. The middleware keeps no state across requests. -/
def processProtected {β : Type} (l : X402Layer) (fac : PaymentProof → Bool)
    (handler : β → Nat × String) (req : ProtectedRequest β) : Outcome β :=
  match req.paymentHeader with
  | none => ⟨402, RespBody.requirement l.requirement, [], 0, 0⟩
  | some p =>
    if p.wellFormed then
      match resolve_policy l.tagSet p.tag with
      | PolicyResult.accept =>
          if fac p then
            let r := handler req.body
            ⟨r.1, RespBody.text r.2, [req.body], 1, 1⟩
          else ⟨402, RespBody.requirement l.requirement, [], 1, 0⟩
      | _ => ⟨402, RespBody.requirement l.requirement, [], 0, 0⟩
    else ⟨400, RespBody.text "malformed payment header", [], 0, 0⟩

/-- The JSON body accepted by /discover (backend/mod.rs lines 58-63). -/
structure DiscoverRequest where
  query : String
  filters : Option String
  clientType : Option String
  deriving DecidableEq, Repr

/-- Result of the agent prompt call inside the handler. -/
abbrev AgentResult := Except String String

/-- Shallow embedding of discover_handler (backend/mod.rs lines 67-92): on
a successful agent prompt it returns 200 with a JSON string embedding the
query and the agent response; on a prompt error it returns 500 with an
agent-error string. Both branches return; the function is total. -/
def discover_handler (agentReply : AgentResult) (query : String) :
    Nat × String :=
  match agentReply with
  | Except.ok response =>
      (200, "Discovered via RAG: " ++ query ++ " (Agent response: "
        ++ response ++ ")")
  | Except.error e => (500, "Agent error: " ++ e)

/-- HTTP method, as used by the two routes of the source. -/
inductive Method where
  | get
  | post
  deriving DecidableEq, Repr

/-- An HTTP request to the backend router. The body field is the parsed
/discover body; the /health route ignores it. -/
structure HttpRequest where
  method : Method
  path : String
  paymentHeader : Option PaymentProof
  body : DiscoverRequest
  deriving DecidableEq, Repr

/-- Shallow embedding of the router built in Backend.new (backend/mod.rs
lines 117-129): GET /health answers 200 OK with no payment layer; POST
/discover runs the x402 layer around discover_handler; anything else falls
through (the 404 and 405 fallbacks of axum are collapsed to one). -/
def serve (fac : PaymentProof → Bool) (agentReply : AgentResult)
    (req : HttpRequest) : Outcome DiscoverRequest :=
  if req.path = "/discover" ∧ req.method = Method.post then
    processProtected discoverLayer fac
      (fun b => discover_handler agentReply b.query)
      ⟨req.paymentHeader, req.body⟩
  else if req.path = "/health" ∧ req.method = Method.get then
    ⟨200, RespBody.text "OK", [], 0, 0⟩
  else ⟨404, RespBody.text "", [], 0, 0⟩

/-- Modelled from the spec: the client-side constraints of the payment
agent, a preferred network (if configured) and a per-asset maximum
amount. -/
structure ClientConfig where
  preferredNetwork : Option Network
  maxAmounts : List (Asset × Nat)
  deriving DecidableEq, Repr

/-- Client-side ceiling for an asset, if configured. -/
def ClientConfig.maxFor (c : ClientConfig) (a : Asset) : Option Nat :=
  (c.maxAmounts.find? (fun p => decide (p.1 = a))).map Prod.snd

/-- Modelled from the spec: a tag satisfies the client constraints when its
network matches the preferred network (if one is configured) and its amount
does not exceed the configured ceiling for its asset (if any). -/
def ClientConfig.acceptable (c : ClientConfig) (t : PriceTag) : Bool :=
  (match c.preferredNetwork with
   | some n => decide (t.asset.network = n)
   | none => true)
  && (match c.maxFor t.asset with
      | some m => decide (t.amount ≤ m)
      | none => true)

/-- Modelled from the spec: the agent picks the first tag in server
preference order that also satisfies the client constraints. -/
def selectTag (c : ClientConfig) (tags : List PriceTag) : Option PriceTag :=
  tags.find? c.acceptable

/-- The client configuration built in src/client-tests/src/main.rs lines
25-26: prefer Base Sepolia, ceiling 0.1 USDC on Base Sepolia. -/
def clientTestConfig : ClientConfig :=
  ⟨some Network.baseSepolia,
    [(usdcBaseSepolia, (fromDecimal usdcBaseSepolia.decimals ⟨0, 1, 1⟩).getD 0)]⟩

/-- Terminal outcome of one client payment interaction. -/
inductive AgentOutcome where
  | success (status : Nat) (body : String)
  | noAcceptablePriceTag
  | paymentRejectedAfterRetry
  | direct (status : Nat)
  deriving DecidableEq, Repr

/-- Outcome of the agent together with how many times it resent the
original request with a proof attached. -/
structure AgentTrace where
  outcome : AgentOutcome
  retries : Nat
  deriving DecidableEq, Repr

/-- Modelled from the spec: the client payment agent. A non-402 first
response passes through. On a 402 it selects a tag; none acceptable fails
with noAcceptablePriceTag without retrying; otherwise it signs, resends the
original request exactly once, and a second 402 is the hard failure
paymentRejectedAfterRetry, never a loop. The argument retryResp gives the
server response to the single retry carrying a proof for the chosen tag. -/
def runAgent (c : ClientConfig) (firstStatus : Nat) (offered : List PriceTag)
    (retryResp : PriceTag → Nat × String) : AgentTrace :=
  if firstStatus = 402 then
    match selectTag c offered with
    | none => ⟨AgentOutcome.noAcceptablePriceTag, 0⟩
    | some t =>
        let r := retryResp t
        if r.1 = 402 then ⟨AgentOutcome.paymentRejectedAfterRetry, 1⟩
        else ⟨AgentOutcome.success r.1 r.2, 1⟩
  else ⟨AgentOutcome.direct firstStatus, 0⟩

/-- Modelled from the spec: one facilitator verify attempt either fails at
the transport level or returns a verdict. -/
inductive FacResponse where
  | transportFailure
  | verdict (valid : Bool)
  deriving DecidableEq, Repr

/-- Result of the verify call as seen by the middleware after retries. -/
inductive VerifyResult where
  | ok (valid : Bool)
  | unreachable
  deriving DecidableEq, Repr

/-- Modelled from the spec: retry a verify call whose attempts are given by
f, with the remaining budget as first argument and the attempt index as
second; a verdict stops immediately, a transport failure consumes budget
and retries. Returns the result and the number of attempts made. Backoff
delays are real-time behaviour and are not modelled. -/
def verifyWithRetry (f : Nat → FacResponse) : Nat → Nat → VerifyResult × Nat
  | 0, _ => (VerifyResult.unreachable, 0)
  | b + 1, i =>
    match f i with
    | FacResponse.verdict v => (VerifyResult.ok v, 1)
    | FacResponse.transportFailure =>
        let r := verifyWithRetry f b (i + 1)
        (r.1, r.2 + 1)

/-- Modelled from the spec: the small bounded retry budget. -/
def retryBudget : Nat := 3

/-- The verify call with the full retry budget. -/
def verifyCall (f : Nat → FacResponse) : VerifyResult × Nat :=
  verifyWithRetry f retryBudget 0

/-- Modelled from the spec: how the verify result maps to the response
class, 502 when the facilitator stayed unreachable, 402 on a negative
verdict, 200 (proceed to the handler) on a positive one. -/
def statusAfterVerify : VerifyResult → Nat
  | VerifyResult.unreachable => 502
  | VerifyResult.ok false => 402
  | VerifyResult.ok true => 200

/-- Claim C1: a POST to /discover carrying no payment-proof header responds
402 with the PaymentRequirement document rendered from the route price tag
set, and the wrapped handler is never invoked: the handler input trace is
empty and no facilitator call is made, whatever the facilitator and the
agent would have answered. -/
theorem discover_no_header_402 (fac : PaymentProof → Bool)
    (agentReply : AgentResult) (b : DiscoverRequest) :
    serve fac agentReply ⟨Method.post, "/discover", none, b⟩ =
      ⟨402, RespBody.requirement discoverLayer.requirement, [], 0, 0⟩ := by
  rfl

/-- Claim C2: the 402 challenge for /discover lists exactly two price tags
in server preference order, the Solana USDC tag (amount 0.001 at 6
decimals, that is 1000 smallest units) first and the Base Sepolia USDC tag
(same amount) as fallback; in general a price tag set built with prefer
then orTag renders the preferred tag before the fallback. -/
theorem requirement_order_prefer_then_or :
    discoverLayer.requirement.accepts = [solanaTag, baseSepoliaTag]
    ∧ solanaTag.asset = usdcSolana
    ∧ baseSepoliaTag.asset = usdcBaseSepolia
    ∧ fromDecimal usdcSolana.decimals dec0001 = some solanaTag.amount
    ∧ fromDecimal usdcBaseSepolia.decimals dec0001 = some baseSepoliaTag.amount
    ∧ ∀ (base : PriceTagSet) (b a : PriceTag),
        ((base.prefer b).orTag a).tags = b :: base.tags ++ [a] := by
  refine ⟨rfl, rfl, rfl, rfl, rfl, fun base b a => rfl⟩

/-- Claim C4: when a well-formed proof passes policy and the facilitator
verifies it, the middleware makes exactly one verify call and at most one
settle call for that request; the middleware keeps no state across
requests, so a resubmission of the same proof is a fresh request with its
own trace and never adds a second settle call to an already accepted
request. -/
theorem middleware_verify_once_settle_at_most_once {β : Type}
    (l : X402Layer) (fac : PaymentProof → Bool) (handler : β → Nat × String)
    (p : PaymentProof) (b : β)
    (hw : p.wellFormed = true)
    (hp : resolve_policy l.tagSet p.tag = PolicyResult.accept)
    (hv : fac p = true) :
    (processProtected l fac handler ⟨some p, b⟩).verifyCalls = 1
    ∧ (processProtected l fac handler ⟨some p, b⟩).settleCalls ≤ 1 := by
  simp [processProtected, hw, hp, hv]

/-- Witness for claim C4 at a concrete accepted request on the discover
layer. -/
theorem middleware_verify_once_settle_at_most_once_check :
    (processProtected discoverLayer (fun _ => true)
        (fun q : String => (200, q)) ⟨some ⟨solanaTag, true⟩, "hi"⟩).verifyCalls = 1
    ∧ (processProtected discoverLayer (fun _ => true)
        (fun q : String => (200, q)) ⟨some ⟨solanaTag, true⟩, "hi"⟩).settleCalls ≤ 1 :=
  middleware_verify_once_settle_at_most_once discoverLayer (fun _ => true)
    (fun q : String => (200, q)) ⟨solanaTag, true⟩ "hi" rfl (by decide) rfl

/-- Claim C8: when a well-formed proof passes policy and the facilitator
verifies it, the wrapped handler runs exactly once, on the unmodified
request body, and its result is the response; the handler argument is a
plain function of the body alone, so it can observe neither payment headers
nor any 402 logic. -/
theorem verified_forwarded_handler_once {β : Type}
    (l : X402Layer) (fac : PaymentProof → Bool) (handler : β → Nat × String)
    (p : PaymentProof) (b : β)
    (hw : p.wellFormed = true)
    (hp : resolve_policy l.tagSet p.tag = PolicyResult.accept)
    (hv : fac p = true) :
    processProtected l fac handler ⟨some p, b⟩ =
      ⟨(handler b).1, RespBody.text (handler b).2, [b], 1, 1⟩ := by
  simp [processProtected, hw, hp, hv]

/-- Witness for claim C8 at a concrete verified request on the discover
layer. -/
theorem verified_forwarded_handler_once_check :
    processProtected discoverLayer (fun _ => true)
      (fun b : DiscoverRequest => discover_handler (Except.ok "resp") b.query)
      ⟨some ⟨solanaTag, true⟩, ⟨"frontend", none, none⟩⟩ =
      ⟨200, RespBody.text
          "Discovered via RAG: frontend (Agent response: resp)",
        [⟨"frontend", none, none⟩], 1, 1⟩ :=
  verified_forwarded_handler_once discoverLayer (fun _ => true)
    (fun b : DiscoverRequest => discover_handler (Except.ok "resp") b.query)
    ⟨solanaTag, true⟩ ⟨"frontend", none, none⟩ rfl (by decide) rfl

/-- Claim C3: against a price tag set where the candidate asset and payee
match a listed tag t and the asset carries a recorded ceiling m with
t.amount at most m: the exact listed amount is accepted, one unit below is
rejected as insufficient, one unit above the ceiling is rejected as
exceeding the max, every amount strictly between the listed amount and the
ceiling is accepted; a candidate matching no listed tag is rejected as
unlisted. -/
theorem resolve_policy_cases (s : PriceTagSet) (a : Asset) (payee : String)
    (t : PriceTag) (m : Nat)
    (hfind : s.findListed a payee = some t)
    (hmax : s.maxFor a = some m)
    (hle : t.amount ≤ m) :
    resolve_policy s ⟨a, t.amount, payee⟩ = PolicyResult.accept
    ∧ (0 < t.amount →
        resolve_policy s ⟨a, t.amount - 1, payee⟩ = PolicyResult.rejectInsufficient)
    ∧ resolve_policy s ⟨a, m + 1, payee⟩ = PolicyResult.rejectExceedsMax
    ∧ (∀ x, t.amount < x → x < m →
        resolve_policy s ⟨a, x, payee⟩ = PolicyResult.accept)
    ∧ (∀ (a2 : Asset) (p2 : String) (x : Nat), s.findListed a2 p2 = none →
        resolve_policy s ⟨a2, x, p2⟩ = PolicyResult.rejectUnlisted) := by
  refine ⟨?_, ?_, ?_, ?_, ?_⟩
  · simp only [resolve_policy, hfind, hmax]
    split_ifs with h1 h2 <;> first | rfl | (exfalso; omega)
  · intro hpos
    simp only [resolve_policy, hfind, hmax]
    split_ifs with h1 <;> first | rfl | (exfalso; omega)
  · simp only [resolve_policy, hfind, hmax]
    split_ifs with h1 h2 <;> first | rfl | (exfalso; omega)
  · intro x hlo hhi
    simp only [resolve_policy, hfind, hmax]
    split_ifs with h1 h2 <;> first | rfl | (exfalso; omega)
  · intro a2 p2 x hnone
    simp only [resolve_policy, hnone]

/-- Witness for claim C3 on a concrete set listing the Solana tag with a
recorded ceiling of 5000 smallest units. -/
theorem resolve_policy_cases_check :
    resolve_policy
        ((PriceTagSet.empty.prefer solanaTag).maxTag usdcSolana 5000)
        ⟨usdcSolana, 1000, "11111111111111111111111111111112"⟩
      = PolicyResult.accept
    ∧ resolve_policy
        ((PriceTagSet.empty.prefer solanaTag).maxTag usdcSolana 5000)
        ⟨usdcSolana, 999, "11111111111111111111111111111112"⟩
      = PolicyResult.rejectInsufficient
    ∧ resolve_policy
        ((PriceTagSet.empty.prefer solanaTag).maxTag usdcSolana 5000)
        ⟨usdcSolana, 5001, "11111111111111111111111111111112"⟩
      = PolicyResult.rejectExceedsMax
    ∧ resolve_policy
        ((PriceTagSet.empty.prefer solanaTag).maxTag usdcSolana 5000)
        ⟨usdcSolana, 2500, "11111111111111111111111111111112"⟩
      = PolicyResult.accept
    ∧ resolve_policy
        ((PriceTagSet.empty.prefer solanaTag).maxTag usdcSolana 5000)
        ⟨usdcBaseSepolia, 1000, "unknown"⟩
      = PolicyResult.rejectUnlisted := by
  have h := resolve_policy_cases
    ((PriceTagSet.empty.prefer solanaTag).maxTag usdcSolana 5000)
    usdcSolana "11111111111111111111111111111112" solanaTag 5000
    (by decide) (by decide) (by decide)
  exact ⟨h.1, h.2.1 (by decide), h.2.2.1, h.2.2.2.1 2500 (by decide) (by decide),
    h.2.2.2.2 usdcBaseSepolia "unknown" 1000 (by decide)⟩

/-- A successful find? returns an element satisfying the predicate that is
preceded only by elements falsifying it. -/
theorem find?_first {α : Type} (p : α → Bool) :
    ∀ (l : List α) (x : α), l.find? p = some x →
      p x = true ∧ ∃ l1 l2, l = l1 ++ x :: l2 ∧ ∀ u ∈ l1, p u = false := by
  intro l
  induction l with
  | nil => intro x hx; simp [List.find?] at hx
  | cons a l ih =>
      intro x hx
      by_cases hpa : p a = true
      · rw [List.find?_cons_of_pos _ hpa] at hx
        injection hx with hx
        subst hx
        exact ⟨hpa, [], l, rfl, by simp⟩
      · have hpa2 : p a = false := by
          cases h : p a
          · rfl
          · exact absurd h hpa
        rw [List.find?_cons_of_neg _ hpa] at hx
        obtain ⟨hx1, l1, l2, hsplit, hall⟩ := ih x hx
        refine ⟨hx1, a :: l1, l2, by rw [hsplit]; rfl, ?_⟩
        intro u hu
        rcases List.mem_cons.mp hu with h | h
        · rw [h]; exact hpa2
        · exact hall u h

/-- Claim C6: the client payment agent. On a 402 challenge it selects the
first tag in server preference order that also satisfies the client
constraints (preferred network and per-asset ceiling); with a tag selected
it resends the original request exactly once, a second 402 on the retry is
the hard failure paymentRejectedAfterRetry; with no acceptable tag it fails
with noAcceptablePriceTag without retrying; in every case the agent retries
at most once and never loops. -/
theorem client_agent_selection_and_retry (c : ClientConfig) :
    (∀ (tags : List PriceTag) (t : PriceTag), selectTag c tags = some t →
      c.acceptable t = true
      ∧ ∃ l1 l2, tags = l1 ++ t :: l2 ∧ ∀ u ∈ l1, c.acceptable u = false)
    ∧ (∀ (tags : List PriceTag) (t : PriceTag)
        (retryResp : PriceTag → Nat × String),
        selectTag c tags = some t → (retryResp t).1 ≠ 402 →
        runAgent c 402 tags retryResp =
          ⟨AgentOutcome.success (retryResp t).1 (retryResp t).2, 1⟩)
    ∧ (∀ (tags : List PriceTag) (t : PriceTag)
        (retryResp : PriceTag → Nat × String),
        selectTag c tags = some t → (retryResp t).1 = 402 →
        runAgent c 402 tags retryResp =
          ⟨AgentOutcome.paymentRejectedAfterRetry, 1⟩)
    ∧ (∀ (tags : List PriceTag) (retryResp : PriceTag → Nat × String),
        selectTag c tags = none →
        runAgent c 402 tags retryResp = ⟨AgentOutcome.noAcceptablePriceTag, 0⟩)
    ∧ (∀ (firstStatus : Nat) (tags : List PriceTag)
        (retryResp : PriceTag → Nat × String),
        (runAgent c firstStatus tags retryResp).retries ≤ 1) := by
  refine ⟨?_, ?_, ?_, ?_, ?_⟩
  · intro tags t ht
    exact find?_first c.acceptable tags t ht
  · intro tags t retryResp ht hr
    simp [runAgent, ht, hr]
  · intro tags t retryResp ht hr
    simp [runAgent, ht, hr]
  · intro tags retryResp ht
    simp [runAgent, ht]
  · intro firstStatus tags retryResp
    unfold runAgent
    split_ifs with h1
    · cases hsel : selectTag c tags with
      | none => simp
      | some t =>
          simp only []
          split_ifs with h2 <;> simp
    · simp

/-- Witness for claim C6: the concrete client of
src/client-tests/src/main.rs (prefer Base Sepolia, ceiling 0.1 USDC)
against the discover challenge selects the Base Sepolia fallback tag,
retries once, and a second 402 on the retry is the hard failure. -/
theorem client_agent_selection_and_retry_check :
    (ClientConfig.acceptable clientTestConfig baseSepoliaTag = true
      ∧ ∃ l1 l2, discoverLayer.requirement.accepts = l1 ++ baseSepoliaTag :: l2
          ∧ ∀ u ∈ l1, ClientConfig.acceptable clientTestConfig u = false)
    ∧ runAgent clientTestConfig 402 discoverLayer.requirement.accepts
        (fun _ => (402, "")) = ⟨AgentOutcome.paymentRejectedAfterRetry, 1⟩
    ∧ runAgent clientTestConfig 402 []
        (fun _ => (402, "")) = ⟨AgentOutcome.noAcceptablePriceTag, 0⟩ := by
  have h := client_agent_selection_and_retry clientTestConfig
  exact ⟨h.1 discoverLayer.requirement.accepts baseSepoliaTag (by decide),
    h.2.2.1 discoverLayer.requirement.accepts baseSepoliaTag
      (fun _ => (402, "")) (by decide) rfl,
    h.2.2.2.1 [] (fun _ => (402, "")) rfl⟩

/-- A verify result carrying a verdict always comes from an attempt that
returned that verdict: transport failures alone never produce one. -/
theorem verifyWithRetry_ok_from_verdict (f : Nat → FacResponse) (v : Bool) :
    ∀ (b i c : Nat), verifyWithRetry f b i = (VerifyResult.ok v, c) →
      ∃ j, f j = FacResponse.verdict v := by
  intro b
  induction b with
  | zero => intro i c h; simp [verifyWithRetry] at h
  | succ b ih =>
      intro i c h
      unfold verifyWithRetry at h
      cases hf : f i with
      | verdict w =>
          rw [hf] at h
          simp only [Prod.mk.injEq, VerifyResult.ok.injEq] at h
          exact ⟨i, by rw [hf, h.1]⟩
      | transportFailure =>
          rw [hf] at h
          simp only [Prod.mk.injEq] at h
          obtain ⟨j, hj⟩ := ih (i + 1) (verifyWithRetry f b (i + 1)).2
            (by rw [← h.1])
          exact ⟨j, hj⟩

/-- Claim C7: facilitator transport failures are retried a bounded number
of times: with every attempt failing at the transport level the verify call
makes exactly retryBudget attempts and surfaces as the 502 class, never as
a valid or invalid payment verdict (a verdict outcome always stems from an
attempt that returned that verdict); a negative verdict on the first
attempt is not retried, the call stops after one attempt and maps to 402;
the number of attempts never exceeds the budget. -/
theorem facilitator_transport_retry :
    (∀ f : Nat → FacResponse, (∀ i, f i = FacResponse.transportFailure) →
      verifyCall f = (VerifyResult.unreachable, retryBudget)
      ∧ statusAfterVerify (verifyCall f).1 = 502)
    ∧ (∀ f : Nat → FacResponse, f 0 = FacResponse.verdict false →
      verifyCall f = (VerifyResult.ok false, 1)
      ∧ statusAfterVerify (verifyCall f).1 = 402)
    ∧ (∀ (f : Nat → FacResponse) (v : Bool) (c : Nat),
      verifyCall f = (VerifyResult.ok v, c) →
      ∃ j, f j = FacResponse.verdict v)
    ∧ (∀ f : Nat → FacResponse, (verifyCall f).2 ≤ retryBudget) := by
  have hbound : ∀ (f : Nat → FacResponse) (b i : Nat),
      (verifyWithRetry f b i).2 ≤ b := by
    intro f b
    induction b with
    | zero => intro i; simp [verifyWithRetry]
    | succ b ih =>
        intro i
        unfold verifyWithRetry
        cases hf : f i with
        | verdict w => simp
        | transportFailure => simpa using Nat.succ_le_succ (ih (i + 1))
  refine ⟨?_, ?_, ?_, ?_⟩
  · intro f hall
    have hgen : ∀ (b i : Nat), verifyWithRetry f b i = (VerifyResult.unreachable, b) := by
      intro b
      induction b with
      | zero => intro i; rfl
      | succ b ih =>
          intro i
          unfold verifyWithRetry
          rw [hall i, ih (i + 1)]

    refine ⟨hgen retryBudget 0, ?_⟩
    rw [show verifyCall f = (VerifyResult.unreachable, retryBudget) from
      hgen retryBudget 0]
    rfl
  · intro f h0
    have : verifyCall f = (VerifyResult.ok false, 1) := by
      unfold verifyCall retryBudget verifyWithRetry
      rw [h0]
    exact ⟨this, by rw [this]; rfl⟩
  · intro f v c h
    exact verifyWithRetry_ok_from_verdict f v retryBudget 0 c h
  · intro f
    exact hbound f retryBudget 0

/-- Witness for claim C7 at two concrete facilitators, one always failing
at the transport level and one answering a negative verdict at once. -/
theorem facilitator_transport_retry_check :
    verifyCall (fun _ => FacResponse.transportFailure) =
      (VerifyResult.unreachable, retryBudget)
    ∧ statusAfterVerify
        (verifyCall (fun _ => FacResponse.transportFailure)).1 = 502
    ∧ verifyCall (fun _ => FacResponse.verdict false) = (VerifyResult.ok false, 1)
    ∧ statusAfterVerify (verifyCall (fun _ => FacResponse.verdict false)).1 = 402
    ∧ (verifyCall (fun _ => FacResponse.transportFailure)).2 ≤ retryBudget := by
  have h := facilitator_transport_retry
  have h1 := h.1 (fun _ => FacResponse.transportFailure) (fun _ => rfl)
  have h2 := h.2.1 (fun _ => FacResponse.verdict false) rfl
  exact ⟨h1.1, h1.2, h2.1, h2.2, h.2.2.2 (fun _ => FacResponse.transportFailure)⟩

/-- Stripping a value of l digits padded with k trailing zeros recovers the
pair (l, value), provided the value itself does not end in a zero digit
unless it is the empty fraction. -/
theorem stripZeros_strips (v l : Nat) (hc : l = 0 ∨ v % 10 ≠ 0) :
    ∀ k, stripZeros (l + k) (v * 10 ^ k) = (l, v) := by
  intro k
  induction k with
  | zero =>
      cases l with
      | zero => simp [stripZeros]
      | succ m =>
          have h : v % 10 ≠ 0 := hc.resolve_left (Nat.succ_ne_zero m)
          simp [stripZeros, h]
  | succ k ih =>
      have hrw : l + (k + 1) = (l + k) + 1 := rfl
      have hmul : v * 10 ^ (k + 1) = v * 10 ^ k * 10 := by ring
      rw [hrw, hmul]
      have hmod : v * 10 ^ k * 10 % 10 = 0 := Nat.mul_mod_left _ _
      have hdiv : v * 10 ^ k * 10 / 10 = v * 10 ^ k :=
        Nat.mul_div_cancel _ (by norm_num)
      simp only [stripZeros, hmod, if_pos, hdiv]
      exact ih

/-- Claim C5: for a decimal string whose fractional part has at most d
digits (d the declared decimal count of the asset) and carries no trailing
zero, Amount construction succeeds and rendering the amount back at d
decimals returns exactly the same decimal string; when the string has more
fractional digits than d, construction fails rather than rounding. -/
theorem amount_decimal_roundtrip (d : Nat) (s : DecimalString)
    (hval : s.fracVal < 10 ^ s.fracLen)
    (hcanon : s.fracLen = 0 ∨ s.fracVal % 10 ≠ 0) :
    (∀ n, fromDecimal d s = some n → toDecimal d n = s)
    ∧ (d < s.fracLen → fromDecimal d s = none) := by
  obtain ⟨i, l, v⟩ := s
  simp only at hval hcanon
  constructor
  · intro n hn
    unfold fromDecimal at hn
    simp only at hn
    by_cases hle : l ≤ d
    · rw [if_pos hle] at hn
      injection hn with hn
      subst hn
      have hpow : (0 : Nat) < 10 ^ (d - l) := by positivity
      have hrlt : v * 10 ^ (d - l) < 10 ^ d := by
        have h1 : v * 10 ^ (d - l) < 10 ^ l * 10 ^ (d - l) :=
          mul_lt_mul_of_pos_right hval hpow
        have h2 : (10 : Nat) ^ l * 10 ^ (d - l) = 10 ^ d := by
          rw [← pow_add]
          congr 1
          omega
        rw [h2] at h1
        exact h1
      have hdiv : (i * 10 ^ d + v * 10 ^ (d - l)) / 10 ^ d = i := by
        rw [Nat.mul_comm i (10 ^ d), Nat.mul_add_div (by positivity)]
        simp [Nat.div_eq_of_lt hrlt]
      have hmod : (i * 10 ^ d + v * 10 ^ (d - l)) % 10 ^ d =
          v * 10 ^ (d - l) := by
        rw [Nat.mul_comm i (10 ^ d), Nat.mul_add_mod]
        exact Nat.mod_eq_of_lt hrlt
      have hstrip : stripZeros d (v * 10 ^ (d - l)) = (l, v) := by
        have hdl : l + (d - l) = d := by omega
        have h := stripZeros_strips v l hcanon (d - l)
        rwa [hdl] at h
      unfold toDecimal
      rw [hdiv, hmod, hstrip]
    · rw [if_neg hle] at hn
      exact absurd hn (by simp)
  · intro hlt
    have hlt2 : d < l := hlt
    unfold fromDecimal
    split_ifs with h
    · have h2 : l ≤ d := h
      exact absurd h2 (by omega)
    · rfl

/-- Witness for claim C5 at the source literal 0.001 with the 6 USDC
decimals: construction yields 1000 smallest units, rendering returns 0.001,
and at 2 decimals the construction of 0.001 fails. -/
theorem amount_decimal_roundtrip_check :
    fromDecimal 6 dec0001 = some 1000
    ∧ toDecimal 6 1000 = dec0001
    ∧ fromDecimal 2 dec0001 = none := by
  have h6 := amount_decimal_roundtrip 6 dec0001 (by decide) (by decide)
  have h2 := amount_decimal_roundtrip 2 dec0001 (by decide) (by decide)
  exact ⟨by decide, h6.1 1000 (by decide), h2.2 (by decide)⟩

/-- Claim C9: a GET to /health responds 200 with body OK whatever the
payment header carries; the x402 layer is attached only to /discover, so
/health makes no facilitator call and never yields 402. -/
theorem health_no_payment (fac : PaymentProof → Bool)
    (agentReply : AgentResult) (hdr : Option PaymentProof)
    (b : DiscoverRequest) :
    serve fac agentReply ⟨Method.get, "/health", hdr, b⟩ =
      ⟨200, RespBody.text "OK", [], 0, 0⟩ := by
  rfl

/-- Claim C10: discover_handler returns on both branches, it is a total
function: a successful agent prompt yields 200 with a JSON string embedding
the query and the agent response, a failed prompt yields 500 with an
agent-error string. -/
theorem discover_handler_branches (q r e : String) :
    discover_handler (Except.ok r) q =
      (200, "Discovered via RAG: " ++ q ++ " (Agent response: " ++ r ++ ")")
    ∧ discover_handler (Except.error e) q = (500, "Agent error: " ++ e) :=
  ⟨rfl, rfl⟩

end Librarian
